import Mathlib

/-!
Verification of the CSV-to-time-series conversion in
`custom_components/meridian_energy/sensor.py` (method
`MeridianEnergyUsageSensor.update`).

The embedding models a document as a list of rows, each row a list of
string fields (the tokenization done by Python's `csv.reader` is outside
the scope of the claims).  Python `float` quantities are modelled as exact
rationals (`ℚ`); the special values `inf`/`nan` and underscore digit
separators accepted by Python `float` are not representable and are
omitted.  `pytz`'s `tz.localize` only attaches timezone information and
never changes the wall-clock fields (with the default `is_dst=False` it
never raises), so localization is modelled as the identity on the
wall-clock datetime; microseconds are always 0 for this format and are
not modelled.
-/

/-- Wall-clock datetime as produced by `datetime.strptime` with format
`"%d/%m/%Y %H:%M:%S"` (microsecond always 0, not modelled). -/
structure DateTime where
  year : Nat
  month : Nat
  day : Nat
  hour : Nat
  minute : Nat
  second : Nat
deriving DecidableEq, Repr

/-- Value of a decimal digit character, `none` for non-digits. -/
def digitVal (c : Char) : Option Nat :=
  if c.isDigit then some (c.toNat - 48) else none

/-- Parse one or two decimal digits (maximal munch), returning the value and
the remaining characters.  Python's `_strptime` field patterns for `%d`,
`%m`, `%H`, `%M`, `%S` match one or two digits; because every such field is
followed by a non-digit literal (or end of input), maximal munch agrees
with the regex's backtracking. -/
def parse2 (cs : List Char) : Option (Nat × List Char) :=
  match cs with
  | [] => none
  | c1 :: rest =>
    match digitVal c1 with
    | none => none
    | some d1 =>
      match rest with
      | [] => some (d1, [])
      | c2 :: rest2 =>
        match digitVal c2 with
        | none => some (d1, rest)
        | some d2 => some (d1 * 10 + d2, rest2)

/-- Parse exactly four decimal digits (Python's `%Y` pattern). -/
def parse4 (cs : List Char) : Option (Nat × List Char) :=
  match cs with
  | c1 :: c2 :: c3 :: c4 :: rest =>
    match digitVal c1, digitVal c2, digitVal c3, digitVal c4 with
    | some d1, some d2, some d3, some d4 =>
      some (((d1 * 10 + d2) * 10 + d3) * 10 + d4, rest)
    | _, _, _, _ => none
  | _ => none

/-- Require a specific literal character next. -/
def expectChar (c : Char) (cs : List Char) : Option (List Char) :=
  match cs with
  | [] => none
  | c0 :: rest => if c0 = c then some rest else none

/-- ASCII whitespace as matched by the `\s` class used for a literal space
in a `strptime` format string (and stripped by `float`). -/
def isPySpace (c : Char) : Bool :=
  c = ' ' || c = '\t' || c = '\n' || c = '\r' || c = '\x0b' || c = '\x0c'

/-- A literal space in a `strptime` format matches one or more whitespace
characters. -/
def skipSpaces1 (cs : List Char) : Option (List Char) :=
  match cs with
  | [] => none
  | c :: rest => if isPySpace c then some (rest.dropWhile isPySpace) else none

/-- Gregorian leap-year rule (as used by Python `datetime`). -/
def isLeapYear (y : Nat) : Bool :=
  y % 4 = 0 && (y % 100 ≠ 0 || y % 400 = 0)

/-- Number of days in a month (Python `datetime` validation). -/
def daysInMonth (y m : Nat) : Nat :=
  if m = 2 then (if isLeapYear y then 29 else 28)
  else if m = 4 ∨ m = 6 ∨ m = 9 ∨ m = 11 then 30
  else 31

/-- `datetime.strptime(s, "%d/%m/%Y %H:%M:%S")`: `none` models the
`ValueError` Python raises on a malformed or out-of-range timestamp
(including the `datetime` constructor's field-range validation). -/
def strptimeDMYHMS (s : String) : Option DateTime := do
  let cs := s.data
  let (day, cs) ← parse2 cs
  let cs ← expectChar '/' cs
  let (month, cs) ← parse2 cs
  let cs ← expectChar '/' cs
  let (year, cs) ← parse4 cs
  let cs ← skipSpaces1 cs
  let (hour, cs) ← parse2 cs
  let cs ← expectChar ':' cs
  let (minute, cs) ← parse2 cs
  let cs ← expectChar ':' cs
  let (second, cs) ← parse2 cs
  if cs = [] ∧ 1 ≤ year ∧ 1 ≤ month ∧ month ≤ 12 ∧
      1 ≤ day ∧ day ≤ daysInMonth year month ∧
      hour ≤ 23 ∧ minute ≤ 59 ∧ second ≤ 59 then
    some ⟨year, month, day, hour, minute, second⟩
  else
    none

/-- Parse a run of decimal digits, accumulating onto `acc` with digit count
`n`; returns value, digit count and remaining characters. -/
def parseDigitsAux : List Char → Nat → Nat → Nat × Nat × List Char
  | [], acc, n => (acc, n, [])
  | c :: rest, acc, n =>
    match digitVal c with
    | none => (acc, n, c :: rest)
    | some d => parseDigitsAux rest (acc * 10 + d) (n + 1)

/-- Exponent part and end-of-input check for `parseFloat`. -/
def parseExpThenEnd (m : ℚ) (cs : List Char) : Option ℚ :=
  let (epos, cs1) :=
    match cs with
    | '+' :: r => (true, r)
    | '-' :: r => (false, r)
    | _ => (true, cs)
  let (e, en, cs2) := parseDigitsAux cs1 0 0
  if en = 0 then none
  else if cs2.dropWhile isPySpace = [] then
    some (if epos then m * 10 ^ e else m / 10 ^ e)
  else none

/-- Python `float(s)`, modelled over exact rationals: optional surrounding
whitespace, optional sign, integer and/or fractional digits (at least one
digit in total), optional decimal exponent.  `none` models the
`ValueError` raised on a non-numeric string. -/
def parseFloat (s : String) : Option ℚ :=
  let cs := s.data.dropWhile isPySpace
  let (sgn, cs1) :=
    match cs with
    | '+' :: r => ((1 : ℚ), r)
    | '-' :: r => ((-1 : ℚ), r)
    | _ => ((1 : ℚ), cs)
  let (ip, ipn, cs2) := parseDigitsAux cs1 0 0
  let (fp, fpn, cs3) :=
    match cs2 with
    | '.' :: r => parseDigitsAux r 0 0
    | _ => (0, 0, cs2)
  if ipn + fpn = 0 then none
  else
    let m := sgn * ((ip : ℚ) + (fp : ℚ) / 10 ^ fpn)
    match cs3 with
    | 'e' :: r => parseExpThenEnd m r
    | 'E' :: r => parseExpThenEnd m r
    | r => if r.dropWhile isPySpace = [] then some m else none

/-- One point handed to the statistics sink: `StatisticData(start=..., sum=...)`
in the source. -/
structure StatisticData where
  start : DateTime
  sum : ℚ
deriving DecidableEq, Repr

/-- The mutable locals of one `update` invocation (lines 110-117 of
`sensor.py`): per-channel running sum and accumulated point list. -/
structure UpdateState where
  solarRunningSum : ℚ
  solarStatistics : List StatisticData
  dayRunningSum : ℚ
  dayStatistics : List StatisticData
  nightRunningSum : ℚ
  nightStatistics : List StatisticData
deriving DecidableEq, Repr

/-- All running sums 0 and all point lists empty, as at the start of an
`update` invocation. -/
def initState : UpdateState := ⟨0, [], 0, [], 0, []⟩

/-- `start_date.replace(minute=0, second=0, microsecond=0)` (microsecond is
always 0 here and not modelled). -/
def truncateToHour (d : DateTime) : DateTime :=
  { d with minute := 0, second := 0 }

/-- Python `datetime.time` comparison `(h1,m1,s1) < (h2,m2,s2)`,
lexicographic (microseconds are 0 on both sides in the source's
comparisons). -/
def timeLtB (h1 m1 s1 h2 m2 s2 : Nat) : Bool :=
  h1 < h2 || (h1 = h2 && (m1 < m2 || (m1 = m2 && s1 < s2)))

/-- The source's night-rate test on the truncated bucket start:
`rounded_date.time() >= time(21,0,0) or rounded_date.time() < time(7,0,0)`
(`a >= b` is the negation of `a < b` on `datetime.time`). -/
def nightCheck (d : DateTime) : Bool :=
  !timeLtB d.hour d.minute d.second 21 0 0 || timeLtB d.hour d.minute d.second 7 0 0

/-- Classification-and-accumulation block of the source (lines 173-205):
flow direction `"I"` goes to the solar channel; otherwise the night test on
the bucket start picks night, else day.  The matching channel's running sum
is advanced by `q` and one point `(bucket, new running sum)` is appended. -/
def appendReading (s : UpdateState) (fd : String) (b : DateTime) (q : ℚ) : UpdateState :=
  if fd = "I" then
    { s with solarRunningSum := s.solarRunningSum + q,
             solarStatistics := s.solarStatistics ++ [⟨b, s.solarRunningSum + q⟩] }
  else if nightCheck b then
    { s with nightRunningSum := s.nightRunningSum + q,
             nightStatistics := s.nightStatistics ++ [⟨b, s.nightRunningSum + q⟩] }
  else
    { s with dayRunningSum := s.dayRunningSum + q,
             dayStatistics := s.dayStatistics ++ [⟨b, s.dayRunningSum + q⟩] }

/-- Outcome of one iteration of the row loop: continue with a new state,
`break` out of the loop keeping the state (`halt`), or raise an uncaught
exception (`fail`: `IndexError` on a missing field or `ValueError` from
`strptime`/`float`). -/
inductive RowOutcome where
  | next (s : UpdateState)
  | halt (s : UpdateState)
  | fail
deriving DecidableEq, Repr

/-- One iteration of the row loop (lines 128-205 of `sensor.py`), with field
accesses in source order: length guard, `row[0]` tag check, `row[6]`,
`row[11]` status check, `row[9]` timestamp parse, minute-59 check,
truncation, `row[12]` quantity parse, classification. -/
def processRow (s : UpdateState) (row : List String) : RowOutcome :=
  if row.length < 2 then .halt s
  else
    match row.get? 0 with
    | none => .fail
    | some tag =>
      if tag = "HDR" then .next s
      else
        match row.get? 6 with
        | none => .fail
        | some energy_flow_direction =>
          match row.get? 11 with
          | none => .fail
          | some read_status =>
            if read_status ≠ "RD" then .next s
            else
              match row.get? 9 with
              | none => .fail
              | some read_period_start_date_time =>
                match strptimeDMYHMS read_period_start_date_time with
                | none => .fail
                | some start_date =>
                  if start_date.minute = 59 then .next s
                  else
                    match row.get? 12 with
                    | none => .fail
                    | some unit_quantity_active_energy_volume =>
                      match parseFloat unit_quantity_active_energy_volume with
                      | none => .fail
                      | some q =>
                        .next (appendReading s energy_flow_direction (truncateToHour start_date) q)

/-- Result of running the row loop over a document: completed normally,
stopped early via `break` (both fall through to the sink calls), or
aborted by an uncaught exception. -/
inductive RunResult where
  | done (s : UpdateState)
  | halted (s : UpdateState)
  | err
deriving DecidableEq, Repr

/-- The row loop over a whole document. -/
def processRows : UpdateState → List (List String) → RunResult
  | s, [] => .done s
  | s, row :: rest =>
    match processRow s row with
    | .next s2 => processRows s2 rest
    | .halt s2 => .halted s2
    | .fail => .err

/-- Modelled from the spec: the integration domain constant `DOMAIN` lives
in `const.py`, which is not part of the sources here; the spec gives the
series identifiers as `"<domain>:return_to_grid"` etc. -/
def DOMAIN : String := "meridian_energy"

/-- Modelled from the spec: the display-name constant `SENSOR_NAME` lives
in `const.py`, which is not part of the sources here; the spec only
requires a display name per channel. -/
def SENSOR_NAME : String := "Meridian Energy"

/-- `UnitOfEnergy.KILO_WATT_HOUR` ("kWh"). -/
def KILO_WATT_HOUR : String := "kWh"

/-- `StatisticMetaData` as built in the source (lines 207-235). -/
structure StatisticMetaData where
  has_mean : Bool
  has_sum : Bool
  name : String
  source : String
  statistic_id : String
  unit_of_measurement : String
deriving DecidableEq, Repr

/-- One call to `async_add_external_statistics`. -/
structure SinkCall where
  metadata : StatisticMetaData
  stats : List StatisticData
deriving DecidableEq, Repr

def solarMetadata : StatisticMetaData :=
  ⟨false, true, SENSOR_NAME ++ " (Solar Export)", DOMAIN,
    DOMAIN ++ ":return_to_grid", KILO_WATT_HOUR⟩

def dayMetadata : StatisticMetaData :=
  ⟨false, true, SENSOR_NAME ++ " (Day)", DOMAIN,
    DOMAIN ++ ":consumption_day", KILO_WATT_HOUR⟩

def nightMetadata : StatisticMetaData :=
  ⟨false, true, SENSOR_NAME ++ " (Night)", DOMAIN,
    DOMAIN ++ ":consumption_night", KILO_WATT_HOUR⟩

/-- The three unconditional sink calls at the end of `update`, in source
order: solar, day, night. -/
def emittedCalls (s : UpdateState) : List SinkCall :=
  [⟨solarMetadata, s.solarStatistics⟩,
   ⟨dayMetadata, s.dayStatistics⟩,
   ⟨nightMetadata, s.nightStatistics⟩]

/-- The whole `update` method on a document (list of rows): run the row
loop from fresh state; a normal or `break`-terminated loop falls through
to the three sink calls, an uncaught exception (`err`) propagates out of
`update` before any sink call (`none`). -/
def update (doc : List (List String)) : Option (List SinkCall) :=
  match processRows initState doc with
  | .done s => some (emittedCalls s)
  | .halted s => some (emittedCalls s)
  | .err => none

/-! ## Helper lemmas about one loop iteration -/

theorem length_le_of_get?_eq_none {α : Type} {l : List α} {n : Nat}
    (h : l.get? n = none) : l.length ≤ n := List.get?_eq_none.mp h

theorem lt_length_of_get?_eq_some {α : Type} {l : List α} {n : Nat} {a : α}
    (h : l.get? n = some a) : n < l.length := (List.get?_eq_some.mp h).1

/-- A row that passes every filter is classified and accumulated by
`appendReading` on the bucket obtained by truncating its parsed timestamp. -/
theorem processRow_accepted (s : UpdateState) (row : List String)
    (tag fd ts qs : String) (d : DateTime) (q : ℚ)
    (h0 : row.get? 0 = some tag) (hhdr : tag ≠ "HDR")
    (h6 : row.get? 6 = some fd)
    (h11 : row.get? 11 = some "RD")
    (h9 : row.get? 9 = some ts)
    (hd : strptimeDMYHMS ts = some d)
    (hm : d.minute ≠ 59)
    (h12 : row.get? 12 = some qs)
    (hq : parseFloat qs = some q) :
    processRow s row = .next (appendReading s fd (truncateToHour d) q) := by
  have hlen : 6 < row.length := lt_length_of_get?_eq_some h6
  have h2 : ¬ row.length < 2 := by omega
  have hrd : ¬ ("RD" : String) ≠ "RD" := fun h => h rfl
  simp only [processRow, h0, h6, h11, h9, hd, h12, hq, if_neg h2, if_neg hhdr,
    if_neg hrd, if_neg hm]

/-- A row with at least 12 fields whose status field is not `"RD"` is
skipped: the state is unchanged and the loop continues. -/
theorem processRow_skip_status (s : UpdateState) (row : List String)
    (st : String) (hlen : 12 ≤ row.length)
    (h11 : row.get? 11 = some st) (hst : st ≠ "RD") :
    processRow s row = .next s := by
  have h2 : ¬ row.length < 2 := by omega
  cases h0 : row.get? 0 with
  | none => exact absurd (length_le_of_get?_eq_none h0) (by omega)
  | some tag =>
    by_cases hhdr : tag = "HDR"
    · simp only [processRow, h0, if_neg h2, if_pos hhdr]
    · cases h6 : row.get? 6 with
      | none => exact absurd (length_le_of_get?_eq_none h6) (by omega)
      | some fd =>
        simp only [processRow, h0, h6, h11, if_neg h2, if_neg hhdr, if_pos hst]

/-- A row with at least 13 fields whose timestamp parses with minute
component 59 is skipped: the state is unchanged and the loop continues
(whatever its tag and status fields are). -/
theorem processRow_skip_minute59 (s : UpdateState) (row : List String)
    (ts : String) (d : DateTime) (hlen : 13 ≤ row.length)
    (h9 : row.get? 9 = some ts) (hd : strptimeDMYHMS ts = some d)
    (hm : d.minute = 59) :
    processRow s row = .next s := by
  have h2 : ¬ row.length < 2 := by omega
  cases h0 : row.get? 0 with
  | none => exact absurd (length_le_of_get?_eq_none h0) (by omega)
  | some tag =>
    by_cases hhdr : tag = "HDR"
    · simp only [processRow, h0, if_neg h2, if_pos hhdr]
    · cases h6 : row.get? 6 with
      | none => exact absurd (length_le_of_get?_eq_none h6) (by omega)
      | some fd =>
        cases h11 : row.get? 11 with
        | none => exact absurd (length_le_of_get?_eq_none h11) (by omega)
        | some st =>
          by_cases hst : st = "RD"
          · subst hst
            have hrd : ¬ ("RD" : String) ≠ "RD" := fun h => h rfl
            simp only [processRow, h0, h6, h11, h9, hd, if_neg h2, if_neg hhdr,
              if_neg hrd, if_pos hm]
          · exact processRow_skip_status s row st (by omega) h11 hst

/-- Every iteration of the row loop either breaks keeping the state, skips
the row, raises, or passes every filter and accumulates exactly one reading
via `appendReading` on the truncated bucket (with the quantity parsed from
field 12). -/
theorem processRow_cases (s : UpdateState) (row : List String) :
    processRow s row = .halt s ∨ processRow s row = .next s ∨
    processRow s row = .fail ∨
    (∃ tag fd ts d qs q,
      row.get? 0 = some tag ∧ tag ≠ "HDR" ∧
      row.get? 6 = some fd ∧
      row.get? 11 = some "RD" ∧
      row.get? 9 = some ts ∧ strptimeDMYHMS ts = some d ∧
      d.minute ≠ 59 ∧
      row.get? 12 = some qs ∧ parseFloat qs = some q ∧
      processRow s row = .next (appendReading s fd (truncateToHour d) q)) := by
  unfold processRow
  repeat' split
  all_goals first
    | exact Or.inl rfl
    | exact Or.inr (Or.inl rfl)
    | exact Or.inr (Or.inr (Or.inl rfl))
    | (rename_i hn2 xa tag h0 hhdr xb fd h6 xc st h11 hst xd ts h9 xe d hd hm xf qs h12 xg q hq
       exact Or.inr (Or.inr (Or.inr ⟨tag, fd, ts, d, qs, q, h0, hhdr, h6,
         not_not.mp hst ▸ h11, h9, hd, hm, h12, hq, rfl⟩)))

/-- The three output channels. -/
inductive Channel where
  | solar
  | day
  | night
deriving DecidableEq, Repr

/-- Point list of a channel in a state. -/
def chanStats : Channel → UpdateState → List StatisticData
  | .solar, s => s.solarStatistics
  | .day, s => s.dayStatistics
  | .night, s => s.nightStatistics

/-- Running sum of a channel in a state. -/
def chanSum : Channel → UpdateState → ℚ
  | .solar, s => s.solarRunningSum
  | .day, s => s.dayRunningSum
  | .night, s => s.nightRunningSum

/-- The channel an accepted reading is routed to, as a function of its
flow-direction field and its hour bucket. -/
def channelOf (fd : String) (b : DateTime) : Channel :=
  if fd = "I" then .solar else if nightCheck b then .night else .day

theorem appendReading_same_channel (s : UpdateState) (fd : String)
    (b : DateTime) (q : ℚ) :
    chanStats (channelOf fd b) (appendReading s fd b q)
      = chanStats (channelOf fd b) s ++ [⟨b, chanSum (channelOf fd b) s + q⟩] ∧
    chanSum (channelOf fd b) (appendReading s fd b q)
      = chanSum (channelOf fd b) s + q := by
  unfold channelOf appendReading
  by_cases hI : fd = "I"
  · simp [hI, chanStats, chanSum]
  · by_cases hN : nightCheck b
    · simp [hI, hN, chanStats, chanSum]
    · simp [hI, hN, chanStats, chanSum]

theorem appendReading_extends (s : UpdateState) (fd : String) (b : DateTime)
    (q : ℚ) (c : Channel) :
    ∃ t, chanStats c (appendReading s fd b q) = chanStats c s ++ t := by
  unfold appendReading
  by_cases hI : fd = "I"
  · cases c
    · exact ⟨[⟨b, s.solarRunningSum + q⟩], by simp [hI, chanStats]⟩
    · exact ⟨[], by simp [hI, chanStats]⟩
    · exact ⟨[], by simp [hI, chanStats]⟩
  · by_cases hN : nightCheck b
    · cases c
      · exact ⟨[], by simp [hI, hN, chanStats]⟩
      · exact ⟨[], by simp [hI, hN, chanStats]⟩
      · exact ⟨[⟨b, s.nightRunningSum + q⟩], by simp [hI, hN, chanStats]⟩
    · cases c
      · exact ⟨[], by simp [hI, hN, chanStats]⟩
      · exact ⟨[⟨b, s.dayRunningSum + q⟩], by simp [hI, hN, chanStats]⟩
      · exact ⟨[], by simp [hI, hN, chanStats]⟩

/-- Splitting the row loop over an appended document. -/
theorem processRows_append (a : List (List String)) : ∀ (s : UpdateState)
    (b : List (List String)),
    processRows s (a ++ b) =
      match processRows s a with
      | .done s2 => processRows s2 b
      | .halted s2 => .halted s2
      | .err => .err := by
  induction a with
  | nil => intro s b; rfl
  | cons row rest ih =>
    intro s b
    simp only [List.cons_append, processRows]
    cases processRow s row <;> simp [ih]

/-- A completed (or `break`-terminated) run only ever appends to each
channel's point list. -/
theorem processRows_extends (doc : List (List String)) : ∀ (s r : UpdateState),
    (processRows s doc = .done r ∨ processRows s doc = .halted r) →
    ∀ c : Channel, ∃ t, chanStats c r = chanStats c s ++ t := by
  induction doc with
  | nil =>
    intro s r h c
    rcases h with h | h <;> simp only [processRows] at h
    · cases h; exact ⟨[], by simp⟩
    · cases h
  | cons row rest ih =>
    intro s r h c
    rcases processRow_cases s row with hc | hc | hc |
      ⟨tag, fd, ts, d, qs, q, h0, hhdr, h6, h11, h9, hd, hm, h12, hq, hc⟩
    · rcases h with h | h <;> simp only [processRows, hc] at h
      · cases h
      · cases h
        exact ⟨[], by simp⟩
    · rcases h with h | h <;> simp only [processRows, hc] at h
      · exact ih s r (Or.inl h) c
      · exact ih s r (Or.inr h) c
    · rcases h with h | h <;> simp only [processRows, hc] at h <;>
        exact RunResult.noConfusion h
    · rcases h with h | h <;> simp only [processRows, hc] at h
      · obtain ⟨t1, ht1⟩ := appendReading_extends s fd (truncateToHour d) q c
        obtain ⟨t2, ht2⟩ := ih _ r (Or.inl h) c
        exact ⟨t1 ++ t2, by rw [ht2, ht1, List.append_assoc]⟩
      · obtain ⟨t1, ht1⟩ := appendReading_extends s fd (truncateToHour d) q c
        obtain ⟨t2, ht2⟩ := ih _ r (Or.inr h) c
        exact ⟨t1 ++ t2, by rw [ht2, ht1, List.append_assoc]⟩

/-! ## Monotonicity of the running sums -/

/-- The `sum` components of a point list are at least `lo` and
non-decreasing left to right. -/
def monoFrom (lo : ℚ) : List StatisticData → Prop
  | [] => True
  | p :: rest => lo ≤ p.sum ∧ monoFrom p.sum rest

theorem monoFrom_append_one (b : DateTime) (x : ℚ) :
    ∀ (l : List StatisticData) (lo : ℚ), monoFrom lo l →
      (∀ p ∈ l, p.sum ≤ x) → lo ≤ x →
      monoFrom lo (l ++ [⟨b, x⟩]) := by
  intro l
  induction l with
  | nil => intro lo _ _ hlo; exact ⟨hlo, trivial⟩
  | cons p rest ih =>
    intro lo hm hb hlo
    exact ⟨hm.1, ih p.sum hm.2 (fun r hr => hb r (List.mem_cons_of_mem p hr))
      (hb p (List.mem_cons_self p rest))⟩

/-- Invariant tying a channel's point list to its running sum: the recorded
sums start at 0, never decrease, and are all bounded by the current running
sum, which is itself non-negative. -/
def chanInv (sum : ℚ) (stats : List StatisticData) : Prop :=
  monoFrom 0 stats ∧ 0 ≤ sum ∧ ∀ p ∈ stats, p.sum ≤ sum

def stateInv (s : UpdateState) : Prop :=
  chanInv s.solarRunningSum s.solarStatistics ∧
  chanInv s.dayRunningSum s.dayStatistics ∧
  chanInv s.nightRunningSum s.nightStatistics

theorem chanInv_append (sum q : ℚ) (b : DateTime) (stats : List StatisticData)
    (h : chanInv sum stats) (hq : 0 ≤ q) :
    chanInv (sum + q) (stats ++ [⟨b, sum + q⟩]) := by
  obtain ⟨hm, hs, hb⟩ := h
  refine ⟨monoFrom_append_one b (sum + q) stats 0 hm
      (fun p hp => le_trans (hb p hp) (by linarith)) (by linarith),
    by linarith, ?_⟩
  intro p hp
  rcases List.mem_append.mp hp with hp | hp
  · exact le_trans (hb p hp) (by linarith)
  · rcases List.mem_singleton.mp hp with rfl
    exact le_refl _

theorem stateInv_init : stateInv initState := by
  refine ⟨⟨trivial, le_refl 0, ?_⟩, ⟨trivial, le_refl 0, ?_⟩, ⟨trivial, le_refl 0, ?_⟩⟩ <;>
    intro p hp <;> cases hp

theorem stateInv_appendReading (s : UpdateState) (fd : String) (b : DateTime)
    (q : ℚ) (hq : 0 ≤ q) (h : stateInv s) :
    stateInv (appendReading s fd b q) := by
  obtain ⟨h1, h2, h3⟩ := h
  unfold appendReading
  by_cases hI : fd = "I"
  · simp only [hI, if_pos rfl]
    exact ⟨chanInv_append _ q b _ h1 hq, h2, h3⟩
  · by_cases hN : nightCheck b
    · simp only [if_neg hI, if_pos hN]
      exact ⟨h1, h2, chanInv_append _ q b _ h3 hq⟩
    · simp only [if_neg hI, if_neg hN]
      exact ⟨h1, chanInv_append _ q b _ h2 hq, h3⟩

/-- Does the quantity field of a row, when present and parseable, hold a
non-negative value? -/
def rowQOk (row : List String) : Bool :=
  match row.get? 12 with
  | none => true
  | some qs =>
    match parseFloat qs with
    | none => true
    | some q => decide (0 ≤ q)

/-- Does a row pass all of the source's filters (length guard, tag, read
status, parseable timestamp, minute not 59)?  These are exactly the
conditions under which the loop body reaches the quantity field. -/
def rowAccepted (row : List String) : Bool :=
  decide (13 ≤ row.length) &&
  decide (row.get? 0 ≠ some "HDR") &&
  decide (row.get? 11 = some "RD") &&
  (match row.get? 9 with
   | none => false
   | some ts =>
     match strptimeDMYHMS ts with
     | none => false
     | some d => decide (d.minute ≠ 59))

theorem rowAccepted_of_facts (row : List String) (tag fd ts qs : String)
    (d : DateTime) (q : ℚ)
    (h0 : row.get? 0 = some tag) (hhdr : tag ≠ "HDR")
    (h6 : row.get? 6 = some fd)
    (h11 : row.get? 11 = some "RD")
    (h9 : row.get? 9 = some ts) (hd : strptimeDMYHMS ts = some d)
    (hm : d.minute ≠ 59)
    (h12 : row.get? 12 = some qs) (hq : parseFloat qs = some q) :
    rowAccepted row = true := by
  have hlen : 12 < row.length := lt_length_of_get?_eq_some h12
  unfold rowAccepted
  rw [h9]
  simp [hd, h11, h0, hhdr, hm]
  refine ⟨⟨by omega, ?_⟩, ?_⟩
  · rw [← List.get?_eq_getElem?, h0]
    simp [hhdr]
  · rw [← List.get?_eq_getElem?, h11]

theorem processRows_inv (doc : List (List String)) : ∀ (s r : UpdateState),
    (∀ row ∈ doc, rowAccepted row = true → rowQOk row = true) → stateInv s →
    (processRows s doc = .done r ∨ processRows s doc = .halted r) →
    stateInv r := by
  induction doc with
  | nil =>
    intro s r _ hs h
    rcases h with h | h <;> simp only [processRows] at h
    · cases h; exact hs
    · cases h
  | cons row rest ih =>
    intro s r hq hs h
    have hqrest : ∀ row2 ∈ rest, rowAccepted row2 = true → rowQOk row2 = true :=
      fun row2 hr => hq row2 (List.mem_cons_of_mem row hr)
    rcases processRow_cases s row with hc | hc | hc |
      ⟨tag, fd, ts, d, qs, q, h0, hhdr, h6, h11, h9, hd, hm, h12, hpf, hc⟩
    · rcases h with h | h <;> simp only [processRows, hc] at h
      · cases h
      · cases h; exact hs
    · rcases h with h | h <;> simp only [processRows, hc] at h
      · exact ih s r hqrest hs (Or.inl h)
      · exact ih s r hqrest hs (Or.inr h)
    · rcases h with h | h <;> simp only [processRows, hc] at h <;>
        exact RunResult.noConfusion h
    · have hq0 : 0 ≤ q := by
        have := hq row (List.mem_cons_self row rest)
          (rowAccepted_of_facts row tag fd ts qs d q h0 hhdr h6 h11 h9 hd hm h12 hpf)
        unfold rowQOk at this
        rw [h12] at this
        simp only [hpf] at this
        exact of_decide_eq_true this
      have hs2 := stateInv_appendReading s fd (truncateToHour d) q hq0 hs
      rcases h with h | h <;> simp only [processRows, hc] at h
      · exact ih _ r hqrest hs2 (Or.inl h)
      · exact ih _ r hqrest hs2 (Or.inr h)

/-- On an hour-truncated datetime the source's night test holds exactly for
hours in [21,24) or [0,7). -/
theorem nightCheck_truncateToHour (d : DateTime) :
    nightCheck (truncateToHour d) = true ↔ 21 ≤ d.hour ∨ d.hour < 7 := by
  simp [nightCheck, truncateToHour, timeLtB]

/-! ## Concrete sample rows used by witnesses and counterexamples -/

/-- A data row accepted onto the Day channel (hour bucket 10:00). -/
def sampleDayRow : List String :=
  ["DET", "1", "2", "3", "4", "5", "X", "7", "8", "15/03/2023 10:30:00", "10", "RD", "1.5"]

/-- A second Day-channel row in the same hour bucket as `sampleDayRow`. -/
def sampleDayRow2 : List String :=
  ["DET", "1", "2", "3", "4", "5", "X", "7", "8", "15/03/2023 10:45:00", "10", "RD", "2.5"]

/-- A data row accepted onto the Solar channel (flow direction "I"). -/
def sampleSolarRow : List String :=
  ["DET", "1", "2", "3", "4", "5", "I", "7", "8", "15/03/2023 10:30:00", "10", "RD", "2.0"]

/-- An estimated (status "EST") data row. -/
def sampleEstRow : List String :=
  ["DET", "1", "2", "3", "4", "5", "X", "7", "8", "15/03/2023 10:30:00", "10", "EST", "1.5"]

/-- A daily-summary row (timestamp minute 59). -/
def sampleMinute59Row : List String :=
  ["DET", "1", "2", "3", "4", "5", "X", "7", "8", "15/03/2023 10:59:00", "10", "RD", "1.5"]

/-- An otherwise-accepted row with a non-numeric quantity field. -/
def sampleBadQtyRow : List String :=
  ["DET", "1", "2", "3", "4", "5", "X", "7", "8", "15/03/2023 10:30:00", "10", "RD", "abc"]

/-- A two-field header line (fewer than 13 fields, tag "HDR"). -/
def hdrShortRow : List String := ["HDR", "x"]

/-- A one-field line (fewer than 2 fields). -/
def tinyRow : List String := ["x"]

/-- A two-field data line (tag not "HDR"). -/
def shortDataRow : List String := ["DET", "x"]

/-- A 12-field data row with status "EST": every index the loop dereferences
before the status check exists, so it is skipped without error. -/
def estTwelveRow : List String :=
  ["DET", "1", "2", "3", "4", "5", "6", "7", "8", "9", "10", "EST"]

/-! ## Claims -/

/-- **C5.** For every data row whose parsed timestamp (field 9,
"dd/mm/yyyy HH:MM:SS") has minute component 59, the row contributes no
point to any channel and advances no running sum (the loop continues with
the state unchanged); the filter fires before the timestamp is truncated. -/
theorem claimC5_minute59_no_contribution (s : UpdateState) (row : List String)
    (ts : String) (d : DateTime) (hlen : 13 ≤ row.length)
    (h9 : row.get? 9 = some ts) (hd : strptimeDMYHMS ts = some d)
    (hm : d.minute = 59) :
    processRow s row = RowOutcome.next s :=
  processRow_skip_minute59 s row ts d hlen h9 hd hm

/-- Witness for C5 at a concrete minute-59 row. -/
theorem claimC5_minute59_no_contribution_witness :
    processRow initState sampleMinute59Row = RowOutcome.next initState :=
  claimC5_minute59_no_contribution initState sampleMinute59Row
    "15/03/2023 10:59:00" ⟨2023, 3, 15, 10, 59, 0⟩ (by decide) rfl (by decide) rfl

/-- **C6.** For every data row whose read-status field (field 11) is not
exactly "RD", the row contributes no point to any of the three channels and
does not advance any channel's running sum (the loop continues with the
state unchanged). -/
theorem claimC6_non_rd_status_skipped (s : UpdateState) (row : List String)
    (st : String) (hlen : 12 ≤ row.length)
    (h11 : row.get? 11 = some st) (hst : st ≠ "RD") :
    processRow s row = RowOutcome.next s :=
  processRow_skip_status s row st hlen h11 hst

/-- Witness for C6 at a concrete estimated row. -/
theorem claimC6_non_rd_status_skipped_witness :
    processRow initState sampleEstRow = RowOutcome.next initState :=
  claimC6_non_rd_status_skipped initState sampleEstRow "EST" (by decide) rfl
    (by decide)

/-- **C2 (amended).** When a line with fewer than 2 fields is encountered,
the loop breaks: no later row is processed, and the points accumulated so
far are emitted unchanged in the three sink calls.  (The source's guard is
`len(row) < 2`, not `< 13` as the claim states.) -/
theorem claimC2_short_line_halts_and_emits (pre : List (List String))
    (s : UpdateState) (row : List String) (rest : List (List String))
    (hpre : processRows initState pre = .done s)
    (hshort : row.length < 2) :
    processRow s row = RowOutcome.halt s ∧
    update (pre ++ row :: rest) = some (emittedCalls s) := by
  have hhalt : processRow s row = .halt s := by
    simp only [processRow, if_pos hshort]
  refine ⟨hhalt, ?_⟩
  unfold update
  rw [processRows_append, hpre]
  simp only [processRows, hhalt]

/-- Witness for the amended C2: a one-field line stops processing even
though an accepted row follows, and the (empty) accumulated state is still
emitted. -/
theorem claimC2_short_line_halts_and_emits_witness :
    processRow initState tinyRow = RowOutcome.halt initState ∧
    update ([] ++ tinyRow :: [sampleDayRow]) = some (emittedCalls initState) :=
  claimC2_short_line_halts_and_emits [] initState tinyRow [sampleDayRow] rfl
    (by decide)

set_option maxRecDepth 8000 in
/-- **C2 counterexample.** A line with fewer than 13 fields (the two-field
"HDR" line) does not stop processing: the accepted row after it is still
accumulated, so the Day series is non-empty. -/
theorem claimC2_counterexample :
    hdrShortRow.length < 13 ∧
    update [hdrShortRow, sampleDayRow] =
      some [⟨solarMetadata, []⟩,
            ⟨dayMetadata, [⟨⟨2023, 3, 15, 10, 0, 0⟩, 3 / 2⟩]⟩,
            ⟨nightMetadata, []⟩] :=
  ⟨by decide, by with_unfolding_all decide⟩

/-- **C4.** A row that passes every filter (tag, status "RD", parseable
timestamp, minute not 59) but whose quantity field (field 12) does not
parse as a number makes the whole update abort: the loop iteration raises
(`fail`), no running sum is advanced, and no series is handed to the
statistics sink. -/
theorem claimC4_bad_quantity_aborts_update (pre : List (List String))
    (s : UpdateState) (row : List String) (rest : List (List String))
    (tag fd ts qs : String) (d : DateTime)
    (hpre : processRows initState pre = .done s)
    (h0 : row.get? 0 = some tag) (hhdr : tag ≠ "HDR")
    (h6 : row.get? 6 = some fd) (h11 : row.get? 11 = some "RD")
    (h9 : row.get? 9 = some ts) (hd : strptimeDMYHMS ts = some d)
    (hm : d.minute ≠ 59) (h12 : row.get? 12 = some qs)
    (hq : parseFloat qs = none) :
    processRow s row = RowOutcome.fail ∧ update (pre ++ row :: rest) = none := by
  have hlen : 6 < row.length := lt_length_of_get?_eq_some h6
  have h2 : ¬ row.length < 2 := by omega
  have hrd : ¬ ("RD" : String) ≠ "RD" := fun hh => hh rfl
  have hfail : processRow s row = .fail := by
    simp only [processRow, h0, h6, h11, h9, hd, h12, hq, if_neg h2, if_neg hhdr,
      if_neg hrd, if_neg hm]
  refine ⟨hfail, ?_⟩
  unfold update
  rw [processRows_append, hpre]
  simp only [processRows, hfail]

/-- Witness for C4: a non-numeric quantity ("abc") on an otherwise accepted
row aborts the update with no sink call. -/
theorem claimC4_bad_quantity_aborts_update_witness :
    processRow initState sampleBadQtyRow = RowOutcome.fail ∧
    update ([] ++ sampleBadQtyRow :: []) = none :=
  claimC4_bad_quantity_aborts_update [] initState sampleBadQtyRow []
    "DET" "X" "15/03/2023 10:30:00" "abc" ⟨2023, 3, 15, 10, 30, 0⟩
    rfl rfl (by decide) rfl rfl rfl (by decide) (by decide) rfl (by decide)

/-- **C8.** Deleting a row whose status field is "EST" from a document does
not change the update's output at all: skipped rows are observationally
absent. -/
theorem claimC8_est_row_transparent (pre post : List (List String))
    (est : List String) (hlen : 12 ≤ est.length)
    (h11 : est.get? 11 = some "EST") :
    update (pre ++ est :: post) = update (pre ++ post) := by
  have hskip : ∀ s : UpdateState, processRow s est = .next s := fun s =>
    processRow_skip_status s est "EST" hlen h11 (by decide)
  unfold update
  rw [processRows_append, processRows_append]
  cases hpre : processRows initState pre with
  | done s2 => simp only [processRows, hskip s2]
  | halted s2 => rfl
  | err => rfl

/-- Witness for C8: dropping a concrete "EST" row between two accepted rows
leaves the output unchanged. -/
theorem claimC8_est_row_transparent_witness :
    update ([sampleDayRow] ++ sampleEstRow :: [sampleSolarRow]) =
      update ([sampleDayRow] ++ [sampleSolarRow]) :=
  claimC8_est_row_transparent [sampleDayRow] [sampleSolarRow] sampleEstRow
    (by decide) rfl

/-- **C10 (amended).** A line with at least 2 but fewer than 12 fields whose
first field is not "HDR" makes the loop dereference a missing field (index
6, or index 11) and abort the whole update with an index error: no series
is handed to the statistics sink.  (Lines with exactly 12 fields reach the
status check and may be skipped instead, so the original bound of 13 is too
wide, and the failing access is at index 6 or 11, never 9 or 12.) -/
theorem claimC10_short_data_row_aborts (pre : List (List String))
    (s : UpdateState) (row : List String) (rest : List (List String))
    (tag : String)
    (hpre : processRows initState pre = .done s)
    (hge2 : 2 ≤ row.length) (hlt12 : row.length < 12)
    (h0 : row.get? 0 = some tag) (hhdr : tag ≠ "HDR") :
    processRow s row = RowOutcome.fail ∧ update (pre ++ row :: rest) = none := by
  have h2 : ¬ row.length < 2 := by omega
  have hfail : processRow s row = .fail := by
    cases h6 : row.get? 6 with
    | none => simp only [processRow, h0, h6, if_neg h2, if_neg hhdr]
    | some fd =>
      have h11 : row.get? 11 = none := List.get?_eq_none.mpr (by omega)
      simp only [processRow, h0, h6, h11, if_neg h2, if_neg hhdr]
  refine ⟨hfail, ?_⟩
  unfold update
  rw [processRows_append, hpre]
  simp only [processRows, hfail]

/-- Witness for the amended C10: a two-field "DET" line aborts the update. -/
theorem claimC10_short_data_row_aborts_witness :
    processRow initState shortDataRow = RowOutcome.fail ∧
    update ([] ++ shortDataRow :: []) = none :=
  claimC10_short_data_row_aborts [] initState shortDataRow [] "DET" rfl
    (by decide) (by decide) rfl (by decide)

/-- **C10 counterexample.** A document containing a line with at least 2 and
fewer than 13 fields whose first field is not "HDR" need not abort: a
12-field "DET" line with status "EST" is skipped at the status check (its
indices 6 and 11 both exist), the run completes, and the sink is called. -/
theorem claimC10_counterexample :
    2 ≤ estTwelveRow.length ∧ estTwelveRow.length < 13 ∧
    estTwelveRow.get? 0 = some "DET" ∧
    update [estTwelveRow] = some (emittedCalls initState) :=
  ⟨by decide, by decide, rfl, by decide⟩

/-- **C1.** An accepted row (enough fields, tag not "HDR", status "RD",
parseable timestamp with minute not 59, parseable quantity) is routed by
flow direction: "I" goes to the Solar channel regardless of time-of-day;
any other value goes to Night when the bucket hour is in [21,24) or [0,7),
and to Day when it is in [7,21).  The routed channel's running sum advances
by the quantity and one point (bucket, new sum) is appended to it; the
other channels are untouched. -/
theorem claimC1_flow_direction_routing (s : UpdateState) (row : List String)
    (tag fd ts qs : String) (d : DateTime) (q : ℚ)
    (h0 : row.get? 0 = some tag) (hhdr : tag ≠ "HDR")
    (h6 : row.get? 6 = some fd)
    (h11 : row.get? 11 = some "RD")
    (h9 : row.get? 9 = some ts)
    (hd : strptimeDMYHMS ts = some d)
    (hm : d.minute ≠ 59)
    (h12 : row.get? 12 = some qs)
    (hq : parseFloat qs = some q) :
    (fd = "I" →
      processRow s row = .next { s with
        solarRunningSum := s.solarRunningSum + q,
        solarStatistics := s.solarStatistics ++
          [⟨truncateToHour d, s.solarRunningSum + q⟩] }) ∧
    (fd ≠ "I" → 21 ≤ d.hour ∨ d.hour < 7 →
      processRow s row = .next { s with
        nightRunningSum := s.nightRunningSum + q,
        nightStatistics := s.nightStatistics ++
          [⟨truncateToHour d, s.nightRunningSum + q⟩] }) ∧
    (fd ≠ "I" → 7 ≤ d.hour ∧ d.hour < 21 →
      processRow s row = .next { s with
        dayRunningSum := s.dayRunningSum + q,
        dayStatistics := s.dayStatistics ++
          [⟨truncateToHour d, s.dayRunningSum + q⟩] }) := by
  have hstep := processRow_accepted s row tag fd ts qs d q h0 hhdr h6 h11 h9 hd hm h12 hq
  refine ⟨?_, ?_, ?_⟩
  · intro hI
    rw [hstep]
    unfold appendReading
    rw [if_pos hI]
  · intro hI hhour
    rw [hstep]
    unfold appendReading
    rw [if_neg hI, if_pos ((nightCheck_truncateToHour d).mpr hhour)]
  · intro hI hhour
    rw [hstep]
    unfold appendReading
    rw [if_neg hI, if_neg (by rw [nightCheck_truncateToHour]; omega)]

set_option maxRecDepth 8000 in
/-- Witness for C1 at a concrete accepted export row ("I" → Solar). -/
theorem claimC1_flow_direction_routing_witness :
    processRow initState sampleSolarRow = .next { initState with
      solarRunningSum := initState.solarRunningSum + 2,
      solarStatistics := initState.solarStatistics ++
        [⟨truncateToHour ⟨2023, 3, 15, 10, 30, 0⟩,
          initState.solarRunningSum + 2⟩] } :=
  (claimC1_flow_direction_routing initState sampleSolarRow
    "DET" "I" "15/03/2023 10:30:00" "2.0" ⟨2023, 3, 15, 10, 30, 0⟩ 2
    rfl (by decide) rfl rfl rfl (by decide) (by decide) rfl
    (by with_unfolding_all decide)).1 rfl

/-- **C3.** For every document in which each accepted row's quantity field
parses to a non-negative value, every series handed to the sink has
cumulative sums that start at 0 and never decrease in append order. -/
theorem claimC3_running_sums_monotone (doc : List (List String))
    (hq : ∀ row ∈ doc, rowAccepted row = true → rowQOk row = true)
    (calls : List SinkCall) (h : update doc = some calls) :
    ∀ call ∈ calls, monoFrom 0 call.stats := by
  unfold update at h
  cases hrun : processRows initState doc with
  | done s =>
    rw [hrun] at h
    have hinv := processRows_inv doc initState s hq stateInv_init (Or.inl hrun)
    cases Option.some.inj h
    intro call hc
    simp only [emittedCalls, List.mem_cons, List.mem_singleton] at hc
    rcases hc with rfl | rfl | rfl | hc
    · exact hinv.1.1
    · exact hinv.2.1.1
    · exact hinv.2.2.1
    · cases hc
  | halted s =>
    rw [hrun] at h
    have hinv := processRows_inv doc initState s hq stateInv_init (Or.inr hrun)
    cases Option.some.inj h
    intro call hc
    simp only [emittedCalls, List.mem_cons, List.mem_singleton] at hc
    rcases hc with rfl | rfl | rfl | hc
    · exact hinv.1.1
    · exact hinv.2.1.1
    · exact hinv.2.2.1
    · cases hc
  | err =>
    rw [hrun] at h
    cases h

set_option maxRecDepth 8000 in
/-- Witness for C3 on a concrete two-row Day document: the Day series
emitted for it has non-decreasing sums from 0. -/
theorem claimC3_running_sums_monotone_witness :
    monoFrom 0 (SinkCall.stats
      ⟨dayMetadata, [⟨⟨2023, 3, 15, 10, 0, 0⟩, 3 / 2⟩, ⟨⟨2023, 3, 15, 10, 0, 0⟩, 4⟩]⟩) :=
  claimC3_running_sums_monotone [sampleDayRow, sampleDayRow2]
    (by intro row hr _; fin_cases hr <;> with_unfolding_all decide)
    [⟨solarMetadata, []⟩,
     ⟨dayMetadata, [⟨⟨2023, 3, 15, 10, 0, 0⟩, 3 / 2⟩, ⟨⟨2023, 3, 15, 10, 0, 0⟩, 4⟩]⟩,
     ⟨nightMetadata, []⟩]
    (by with_unfolding_all decide)
    ⟨dayMetadata, [⟨⟨2023, 3, 15, 10, 0, 0⟩, 3 / 2⟩, ⟨⟨2023, 3, 15, 10, 0, 0⟩, 4⟩]⟩
    (List.mem_cons_of_mem _ (List.mem_cons_self _ _))

/-- **C9.** Whenever an update runs to completion (no uncaught exception),
the statistics sink is called exactly three times, in the fixed order
Solar, Day, Night, with series identifiers `<domain>:return_to_grid`,
`<domain>:consumption_day`, `<domain>:consumption_night` and unit
kilowatt-hour ("kWh"), even if a channel's point sequence is empty. -/
theorem claimC9_three_sink_calls (doc : List (List String))
    (calls : List SinkCall) (h : update doc = some calls) :
    (∃ s : UpdateState,
      (processRows initState doc = .done s ∨ processRows initState doc = .halted s) ∧
      calls = [⟨solarMetadata, s.solarStatistics⟩,
               ⟨dayMetadata, s.dayStatistics⟩,
               ⟨nightMetadata, s.nightStatistics⟩]) ∧
    calls.length = 3 ∧
    calls.map (fun call => call.metadata.statistic_id) =
      [DOMAIN ++ ":return_to_grid", DOMAIN ++ ":consumption_day",
       DOMAIN ++ ":consumption_night"] ∧
    (∀ call ∈ calls, call.metadata.unit_of_measurement = KILO_WATT_HOUR) := by
  unfold update at h
  cases hrun : processRows initState doc with
  | done s =>
    rw [hrun] at h
    cases Option.some.inj h
    refine ⟨⟨s, Or.inl rfl, rfl⟩, rfl, rfl, ?_⟩
    intro call hc
    simp only [emittedCalls, List.mem_cons, List.mem_singleton] at hc
    rcases hc with rfl | rfl | rfl | hc
    · rfl
    · rfl
    · rfl
    · cases hc
  | halted s =>
    rw [hrun] at h
    cases Option.some.inj h
    refine ⟨⟨s, Or.inr rfl, rfl⟩, rfl, rfl, ?_⟩
    intro call hc
    simp only [emittedCalls, List.mem_cons, List.mem_singleton] at hc
    rcases hc with rfl | rfl | rfl | hc
    · rfl
    · rfl
    · rfl
    · cases hc
  | err =>
    rw [hrun] at h
    cases h

/-- Witness for C9 on the empty document: all three sink calls happen with
empty point sequences. -/
theorem claimC9_three_sink_calls_witness :
    (∃ s : UpdateState,
      (processRows initState [] = .done s ∨ processRows initState [] = .halted s) ∧
      emittedCalls initState = [⟨solarMetadata, s.solarStatistics⟩,
               ⟨dayMetadata, s.dayStatistics⟩,
               ⟨nightMetadata, s.nightStatistics⟩]) ∧
    (emittedCalls initState).length = 3 ∧
    (emittedCalls initState).map (fun call => call.metadata.statistic_id) =
      [DOMAIN ++ ":return_to_grid", DOMAIN ++ ":consumption_day",
       DOMAIN ++ ":consumption_night"] ∧
    (∀ call ∈ emittedCalls initState,
      call.metadata.unit_of_measurement = KILO_WATT_HOUR) :=
  claimC9_three_sink_calls [] (emittedCalls initState) rfl

/-- **C7.** Two accepted rows whose timestamps truncate to the same hour
bucket and that classify to the same channel each contribute their own
point: after processing a document that contains both (with any rows
in between processing normally), the channel's sequence extends the
original one with the first row's point `(b, sum-so-far + q1)`, then
whatever the middle rows appended, then the second row's point
`(b, sum-at-that-time + q2)` — two separate points with the same bucket
start and their own cumulative sums, never merged. -/
theorem claimC7_same_bucket_two_points (s1 sMid : UpdateState)
    (r1 r2 : List String) (mid : List (List String))
    (tag1 fd1 ts1 qs1 tag2 fd2 ts2 qs2 : String) (d1 d2 : DateTime)
    (q1 q2 : ℚ) (b : DateTime) (c : Channel)
    (h0a : r1.get? 0 = some tag1) (hhdra : tag1 ≠ "HDR")
    (h6a : r1.get? 6 = some fd1) (h11a : r1.get? 11 = some "RD")
    (h9a : r1.get? 9 = some ts1) (hda : strptimeDMYHMS ts1 = some d1)
    (hma : d1.minute ≠ 59) (h12a : r1.get? 12 = some qs1)
    (hqa : parseFloat qs1 = some q1)
    (h0b : r2.get? 0 = some tag2) (hhdrb : tag2 ≠ "HDR")
    (h6b : r2.get? 6 = some fd2) (h11b : r2.get? 11 = some "RD")
    (h9b : r2.get? 9 = some ts2) (hdb : strptimeDMYHMS ts2 = some d2)
    (hmb : d2.minute ≠ 59) (h12b : r2.get? 12 = some qs2)
    (hqb : parseFloat qs2 = some q2)
    (hb1 : truncateToHour d1 = b) (hb2 : truncateToHour d2 = b)
    (hc1 : channelOf fd1 b = c) (hc2 : channelOf fd2 b = c)
    (hmid : processRows (appendReading s1 fd1 b q1) mid = .done sMid) :
    processRows s1 (r1 :: (mid ++ [r2])) = .done (appendReading sMid fd2 b q2) ∧
    ∃ t, chanStats c (appendReading sMid fd2 b q2) =
      chanStats c s1 ++ [⟨b, chanSum c s1 + q1⟩] ++ t ++
        [⟨b, chanSum c sMid + q2⟩] := by
  subst hb1
  have hstep1 := processRow_accepted s1 r1 tag1 fd1 ts1 qs1 d1 q1
    h0a hhdra h6a h11a h9a hda hma h12a hqa
  have hstep2 := processRow_accepted sMid r2 tag2 fd2 ts2 qs2 d2 q2
    h0b hhdrb h6b h11b h9b hdb hmb h12b hqb
  rw [hb2] at hstep2
  constructor
  · simp only [processRows, hstep1]
    rw [processRows_append, hmid]
    simp only [processRows, hstep2]
  · have e1 := appendReading_same_channel s1 fd1 (truncateToHour d1) q1
    rw [hc1] at e1
    have e2 := appendReading_same_channel sMid fd2 (truncateToHour d1) q2
    rw [hc2] at e2
    obtain ⟨t, ht⟩ := processRows_extends mid
      (appendReading s1 fd1 (truncateToHour d1) q1) sMid (Or.inl hmid) c
    refine ⟨t, ?_⟩
    rw [e2.1, ht, e1.1]

/-- The shared hour bucket of `sampleDayRow` and `sampleDayRow2`. -/
def c7Bucket : DateTime := ⟨2023, 3, 15, 10, 0, 0⟩

/-- State after accepting `sampleDayRow` from a fresh state. -/
def c7Mid : UpdateState := appendReading initState "X" c7Bucket (3 / 2)

set_option maxRecDepth 8000 in
/-- Witness for C7: two concrete Day rows in the 10:00 bucket yield two
separate points with sums 1.5 and 4. -/
theorem claimC7_same_bucket_two_points_witness :
    processRows initState (sampleDayRow :: ([] ++ [sampleDayRow2])) =
      .done (appendReading c7Mid "X" c7Bucket (5 / 2)) ∧
    ∃ t, chanStats .day (appendReading c7Mid "X" c7Bucket (5 / 2)) =
      chanStats .day initState ++ [⟨c7Bucket, chanSum .day initState + 3 / 2⟩] ++
        t ++ [⟨c7Bucket, chanSum .day c7Mid + 5 / 2⟩] :=
  claimC7_same_bucket_two_points initState c7Mid sampleDayRow sampleDayRow2 []
    "DET" "X" "15/03/2023 10:30:00" "1.5" "DET" "X" "15/03/2023 10:45:00" "2.5"
    ⟨2023, 3, 15, 10, 30, 0⟩ ⟨2023, 3, 15, 10, 45, 0⟩ (3 / 2) (5 / 2) c7Bucket .day
    rfl (by decide) rfl rfl rfl (by decide) (by decide) rfl
    (by with_unfolding_all decide)
    rfl (by decide) rfl rfl rfl (by decide) (by decide) rfl
    (by with_unfolding_all decide)
    (by decide) (by decide) (by decide) (by decide) rfl
